import Mathlib

/-!
A shallow embedding of `packages/splitview/src/paneview/paneviewComponent.ts`:
the paneview orchestrator (`PaneviewComponent`) with its operations
(`addPanel`, `removePanel`, `movePanel`, `layout`, `resizeToFit`, `toJSON`,
`fromJSON`), the `DefaultHeader`, and the serialization schema.

External collaborators that the source file consumes but whose implementation
is not part of this development are modelled from the specification's
contracts (each such definition carries a doc comment starting with
`Modelled from the spec`): the single-axis Layout Engine (`Paneview`), the
panel wrapper (`PaneviewPanel`), and the Component Factory
(`createComponent`).  Pixel sizes are natural numbers; JavaScript object
identity is modelled by a `ref : Nat` tag that the orchestrator hands out
freshly for every constructed panel wrapper.
-/

namespace Dockview

/-- Orientation of the split layout (from the splitview core interface). -/
inductive Orientation where
  | horizontal
  | vertical
deriving DecidableEq

/-- Sizing argument accepted by the Layout Engine: an explicit pixel size or
the distribute-evenly sentinel (`Sizing.Distribute` in the source). -/
inductive Sizing where
  | number (n : Nat)
  | distribute
deriving DecidableEq

/-- Error raised by the Component Factory when a component kind is unknown. -/
inductive ResolutionError where
  | unknownComponent (id kind : String)
deriving DecidableEq

/-- Serialized panel descriptor, `SerializedPaneviewPanel.data` in the source
(lines 27-34).  `state` is omitted: the panel wrapper's descriptor (spec
section 4.2) is the minimal reconstruction payload.  `params` uses the empty
association list for an absent payload. -/
structure SerializedPanelData where
  id : String
  component : String
  title : String
  headerComponent : Option String
  params : List (String × String)
deriving DecidableEq

/-- One serialized view, `SerializedPaneviewPanel` in the source
(lines 22-37).  `snap` and `priority` are opaque pass-through hints with no
behavior in the embedded code and are omitted. -/
structure SerializedPaneviewPanel where
  size : Nat
  data : SerializedPanelData
  minimumSize : Option Nat
  maximumSize : Option Nat
  expanded : Option Bool
deriving DecidableEq

/-- The serialized document, `SerializedPaneview` in the source
(lines 39-42). -/
structure SerializedPaneview where
  size : Nat
  views : List SerializedPaneviewPanel
deriving DecidableEq

/-- Parameters handed to a panel wrapper's `init`
(`PanePanelInitParameter` plus the add-panel extras). -/
structure PanePanelInitParameter where
  params : List (String × String)
  minimumBodySize : Option Nat
  maximumBodySize : Option Nat
  isExpanded : Option Bool
  title : String
deriving DecidableEq

/-- Modelled from the spec (sections 3 and 4.2): the panel wrapper state.
`ref` models JavaScript object identity (every `new PaneFramework` yields a
fresh `ref`); the header and body renderer instances are opaque and carried
only through the component-kind identifiers needed for serialization.
`initialized` records whether `init` has run. -/
structure PaneviewPanel where
  ref : Nat
  id : String
  component : String
  headerComponent : Option String
  title : String
  params : List (String × String)
  minimumBodySize : Option Nat
  maximumBodySize : Option Nat
  isExpanded : Bool
  initialized : Bool
  orientation : Orientation
deriving DecidableEq

/-- PaneFramework construction (source lines 223-230 and 363-370): a fresh,
uninitialized panel wrapper around the freshly created renderers. -/
def mkPaneFramework (ref : Nat) (id component : String)
    (headerComponent : Option String) : PaneviewPanel :=
  { ref := ref
    id := id
    component := component
    headerComponent := headerComponent
    title := ""
    params := []
    minimumBodySize := none
    maximumBodySize := none
    isExpanded := false
    initialized := false
    orientation := Orientation.vertical }

/-- Modelled from the spec (section 4.2): `init` forwards the resolved
parameters to the wrapped renderers and stores the wrapper-owned state
(title, params, body-size hints, expansion flag).  An absent expansion flag
leaves the current one in place; identity and component kinds are
untouched. -/
def PaneviewPanel.init (p : PaneviewPanel) (prm : PanePanelInitParameter) :
    PaneviewPanel :=
  { p with
    title := prm.title
    params := prm.params
    minimumBodySize := prm.minimumBodySize
    maximumBodySize := prm.maximumBodySize
    isExpanded := prm.isExpanded.getD p.isExpanded
    initialized := true }

/-- Modelled from the spec (section 4.2): the wrapper's `toJSON` returns the
minimal descriptor needed to reconstruct an equivalent panel. -/
def PaneviewPanel.toJSON (p : PaneviewPanel) : SerializedPanelData :=
  { id := p.id
    component := p.component
    title := p.title
    headerComponent := p.headerComponent
    params := p.params }

/-- One pane tracked by the Layout Engine together with its current pixel
size along the layout axis. -/
structure PaneItem where
  pane : PaneviewPanel
  size : Nat
deriving DecidableEq

/-- Insertion at an index, with the JavaScript `splice` clamping behavior:
an index beyond the end appends. -/
def listInsertAt {α : Type} (l : List α) (n : Nat) (a : α) : List α :=
  l.take n ++ a :: l.drop n

/-- JavaScript `Array.prototype.findIndex` (option-valued version): the index
of the first element satisfying the predicate. -/
def findIdxOpt {α : Type} (p : α → Bool) : List α → Option Nat
  | [] => none
  | a :: t => if p a then some 0 else (findIdxOpt p t).map (· + 1)

/-- Modelled from the spec (sections 1, 5, 6): the external single-axis
Layout Engine (`Paneview`).  It owns the ordered pane sequence with the
current pixel size of each pane, the size along the layout axis, the size
across it, and a disposed flag. -/
structure Paneview where
  orientation : Orientation
  size : Nat
  orthogonalSize : Nat
  panes : List PaneItem
  disposed : Bool
deriving DecidableEq

/-- Modelled from the spec: a freshly constructed, empty Layout Engine
(`new Paneview(element, ...)` with an orientation, source lines 173-176). -/
def Paneview.create (orientation : Orientation) : Paneview :=
  { orientation := orientation
    size := 0
    orthogonalSize := 0
    panes := []
    disposed := false }

/-- Modelled from the spec (section 4.1): a Layout Engine constructed from a
descriptor is pre-populated with the given panes at the given sizes; the
cross-axis size is unknown until the first `layout` call. -/
def Paneview.ofDescriptor (orientation : Orientation) (size : Nat)
    (panes : List PaneItem) : Paneview :=
  { orientation := orientation
    size := size
    orthogonalSize := 0
    panes := panes
    disposed := false }

/-- Modelled from the spec (section 6): the ordered pane sequence. -/
def Paneview.getPanes (pv : Paneview) : List PaneviewPanel :=
  pv.panes.map (fun it => it.pane)

/-- Modelled from the spec (section 6): the current pixel size of the pane at
an index. -/
def Paneview.getViewSize (pv : Paneview) (i : Nat) : Nat :=
  (pv.panes[i]?.map (fun it => it.size)).getD 0

/-- Mutation of the pane object with the given identity inside the engine
(the functional rendering of in-place mutation of a captured object). -/
def Paneview.updatePane (pv : Paneview) (ref : Nat)
    (f : PaneviewPanel → PaneviewPanel) : Paneview :=
  let panes' := pv.panes.map (fun it =>
    if it.pane.ref = ref then { it with pane := f it.pane } else it)
  { pv with panes := panes' }

/-- Modelled from the spec (sections 6 and 8): `addPane` inserts at the given
index (append when absent, clamping like `splice`).  An explicit pixel size
is used as given; the distribute-evenly mode splits the engine's current
size equally among all panes (integer division in this model). -/
def Paneview.addPane (pv : Paneview) (pane : PaneviewPanel) (sizing : Sizing)
    (index : Option Nat) : Paneview :=
  let n := index.getD pv.panes.length
  match sizing with
  | Sizing.number sz =>
      { pv with panes := listInsertAt pv.panes n { pane := pane, size := sz } }
  | Sizing.distribute =>
      let each := pv.size / (pv.panes.length + 1)
      let resized := pv.panes.map (fun it => { it with size := each })
      { pv with panes := listInsertAt resized n { pane := pane, size := each } }

/-- Modelled from the spec (section 6): `removePane(index)` removes the pane
at the given index; an index that denotes no pane (such as the `-1` produced
by a failed `findIndex`) leaves the engine unchanged. -/
def Paneview.removePane (pv : Paneview) (index : Int) : Paneview :=
  if 0 ≤ index ∧ index.toNat < pv.panes.length then
    { pv with panes := pv.panes.eraseIdx index.toNat }
  else pv

/-- Modelled from the spec (sections 4.1 and 6): `moveView` reorders panes,
preserving identity and size; an out-of-range source index leaves the engine
unchanged. -/
def Paneview.moveView (pv : Paneview) (i j : Nat) : Paneview :=
  match pv.panes[i]? with
  | none => pv
  | some it =>
      { pv with panes := listInsertAt (pv.panes.eraseIdx i) j it }

/-- Modelled from the spec (sections 1 and 6): the engine's `layout` records
the new along-axis and cross-axis sizes and redistributes pane sizes; a
layout pass at the unchanged along-axis size leaves every pane size as it
is, otherwise sizes are rescaled proportionally (with integer rounding in
this model). -/
def Paneview.layout (pv : Paneview) (size orthogonalSize : Nat) : Paneview :=
  let panes' :=
    if pv.size = size then pv.panes
    else pv.panes.map (fun it => { it with size := it.size * size / max pv.size 1 })
  { pv with
    size := size
    orthogonalSize := orthogonalSize
    panes := panes' }

/-- Modelled from the spec (section 3): disposing the engine tears down its
panes and marks it unusable. -/
def Paneview.dispose (pv : Paneview) : Paneview :=
  { pv with disposed := true }

/-- Modelled from the spec (section 4.3): the panel's control surface as seen
by the default header, carrying the expansion flag. -/
structure PanePanelApi where
  isExpanded : Bool
deriving DecidableEq

/-- Modelled from the spec (section 4.3): `setExpanded` writes the expansion
flag back to the control surface. -/
def PanePanelApi.setExpanded (api : PanePanelApi) (b : Bool) : PanePanelApi :=
  { api with isExpanded := b }

/-- The `DefaultHeader` (source lines 44-71): a plain container holding a
nullable reference to the panel's control surface and its rendered text. -/
structure DefaultHeader where
  apiRef : Option PanePanelApi
  textContent : String
deriving DecidableEq

/-- DefaultHeader construction (source lines 52-61): the control-surface
reference starts out null. -/
def DefaultHeader.create : DefaultHeader :=
  { apiRef := none, textContent := "" }

/-- The click listener body (source line 58),
`setExpanded` applied to the negated current flag through the optional
chain on `apiRef.api`.  Optional chaining short-circuits the whole call
while the reference is null. -/
def DefaultHeader.click (h : DefaultHeader) : DefaultHeader :=
  match h.apiRef with
  | none => h
  | some api => { h with apiRef := some (api.setExpanded (!api.isExpanded)) }

/-- DefaultHeader `init` (source lines 63-66): stores the control surface and
renders the title. -/
def DefaultHeader.init (h : DefaultHeader) (api : PanePanelApi)
    (title : String) : DefaultHeader :=
  { h with apiRef := some api, textContent := title }

/-- Modelled from the spec (section 4.4): the Component Factory resolves a
component kind against a registry.  The produced renderer is opaque here;
resolution fails with a `ResolutionError` when the kind matches no entry,
and that failure is surfaced to the caller, not swallowed. -/
def createComponent (id kind : String) (registry : List String) :
    Except ResolutionError Unit :=
  if kind ∈ registry then Except.ok ()
  else Except.error (ResolutionError.unknownComponent id kind)

/-- The registries carried by `PaneviewComponentOptions`: the body-component
registry and the header-component registry (plain and framework registries
are merged into one kind list each). -/
structure PaneviewComponentOptions where
  components : List String
  headerComponents : List String
deriving DecidableEq

/-- The orchestrator's root element, reduced to the only DOM fact the
embedded code reads: the parent's bounding rectangle (width, height) when
the element is attached, and `none` when it is detached. -/
structure Elem where
  parent : Option (Nat × Nat)
deriving DecidableEq

/-- The orchestrator `PaneviewComponent` (source lines 132-398): the root
element, the construction options, the single live Layout Engine instance,
and the fresh-identity counter for newly constructed panel wrappers. -/
structure PaneviewComponent where
  element : Elem
  options : PaneviewComponentOptions
  paneview : Paneview
  nextRef : Nat
deriving DecidableEq

/-- The orchestrator constructor (source lines 160-184): the Layout Engine is
always created in the vertical orientation (`only allow paneview in the
vertical orientation for now`). -/
def PaneviewComponent.create (element : Elem)
    (options : PaneviewComponentOptions) : PaneviewComponent :=
  { element := element
    options := options
    paneview := Paneview.create Orientation.vertical
    nextRef := 0 }

/-- The `height` getter (source lines 148-152). -/
def PaneviewComponent.height (s : PaneviewComponent) : Nat :=
  if s.paneview.orientation = Orientation.horizontal then
    s.paneview.orthogonalSize
  else s.paneview.size

/-- The `width` getter (source lines 154-158). -/
def PaneviewComponent.width (s : PaneviewComponent) : Nat :=
  if s.paneview.orientation = Orientation.horizontal then s.paneview.size
  else s.paneview.orthogonalSize

/-- The disposal handle returned by `addPanel`. -/
structure DisposableHandle where
  dispose : PaneviewComponent → PaneviewComponent

/-- The `addPanel` options (source lines 101-114, `AddPaneviewCompponentOptions`
with the source's spelling). -/
structure AddPaneviewCompponentOptions where
  id : String
  component : String
  headerComponent : Option String
  params : Option (List (String × String))
  minimumBodySize : Option Nat
  maximumBodySize : Option Nat
  isExpanded : Option Bool
  title : String
  index : Option Nat
  size : Option Nat
deriving DecidableEq

/-- The sizing argument computed by `addPanel` (source lines 232-233):
an explicit number is passed through, anything else becomes
`Sizing.Distribute`. -/
def sizingOf (opts : AddPaneviewCompponentOptions) : Sizing :=
  match opts.size with
  | some n => Sizing.number n
  | none => Sizing.distribute

/-- The `init` parameters assembled by `addPanel` (source lines 239-246). -/
def initPrmOf (opts : AddPaneviewCompponentOptions) : PanePanelInitParameter :=
  { params := opts.params.getD []
    minimumBodySize := opts.minimumBodySize
    maximumBodySize := opts.maximumBodySize
    isExpanded := opts.isExpanded
    title := opts.title }

/-- The orchestrator's `addPanel` (source lines 190-255): resolve the body
renderer, resolve the header renderer (or fall back to `DefaultHeader`),
wrap them in a fresh `PaneFramework`, insert into the Layout Engine with the
computed sizing and index, run `init` immediately, re-assign the panel's
orientation from the engine, and return a disposal handle whose `dispose`
body is empty. -/
def PaneviewComponent.addPanel (s : PaneviewComponent)
    (opts : AddPaneviewCompponentOptions) :
    Except ResolutionError (PaneviewComponent × DisposableHandle) :=
  match createComponent opts.id opts.component s.options.components with
  | Except.error e => Except.error e
  | Except.ok _ =>
    match (match opts.headerComponent with
           | some hk => createComponent opts.id hk s.options.headerComponents
           | none => Except.ok ()) with
    | Except.error e => Except.error e
    | Except.ok _ =>
      let view := mkPaneFramework s.nextRef opts.id opts.component
        opts.headerComponent
      let pv1 := s.paneview.addPane view (sizingOf opts) opts.index
      let pv2 := pv1.updatePane view.ref (fun p => p.init (initPrmOf opts))
      let pv3 := pv2.updatePane view.ref
        (fun p => { p with orientation := pv2.orientation })
      Except.ok ({ s with paneview := pv3, nextRef := s.nextRef + 1 },
        { dispose := fun t => t })

/-- The state produced by a successful `addPanel` (used to phrase
reachability without mentioning the returned handle). -/
def PaneviewComponent.addPanelState (opts : AddPaneviewCompponentOptions)
    (s : PaneviewComponent) : Option PaneviewComponent :=
  match s.addPanel opts with
  | Except.ok r => some r.1
  | Except.error _ => none

/-- The orchestrator's `getPanels` (source lines 257-259). -/
def PaneviewComponent.getPanels (s : PaneviewComponent) : List PaneviewPanel :=
  s.paneview.getPanes

/-- The orchestrator's `removePanel` (source lines 261-265): locate the panel
by identity with `findIndex` (which yields `-1` when absent) and
unconditionally forward the resulting index to the engine's `removePane`. -/
def PaneviewComponent.removePanel (s : PaneviewComponent)
    (panel : PaneviewPanel) : PaneviewComponent :=
  let views := s.getPanels
  let index : Int :=
    match findIdxOpt (fun v => v.ref == panel.ref) views with
    | some i => (i : Int)
    | none => -1
  { s with paneview := s.paneview.removePane index }

/-- The orchestrator's `movePanel` (source lines 267-269). -/
def PaneviewComponent.movePanel (s : PaneviewComponent) (i j : Nat) :
    PaneviewComponent :=
  { s with paneview := s.paneview.moveView i j }

/-- The orchestrator's `getPanel` (source lines 271-273). -/
def PaneviewComponent.getPanel (s : PaneviewComponent) (id : String) :
    Option PaneviewPanel :=
  s.getPanels.find? (fun view => view.id == id)

/-- The orchestrator's `layout` (source lines 275-281): map the container's
(width, height) to the engine's (size, orthogonalSize) according to
orientation, then forward. -/
def PaneviewComponent.layout (s : PaneviewComponent) (width height : Nat) :
    PaneviewComponent :=
  let p :=
    if s.paneview.orientation = Orientation.horizontal then (width, height)
    else (height, width)
  { s with paneview := s.paneview.layout p.1 p.2 }

/-- The orchestrator's `resizeToFit` (source lines 286-295): a silent no-op
when the root element has no parent, otherwise a `layout` call with the
parent's bounding rectangle. -/
def PaneviewComponent.resizeToFit (s : PaneviewComponent) : PaneviewComponent :=
  match s.element.parent with
  | none => s
  | some rect => s.layout rect.1 rect.2

/-- One serialized view as emitted by `toJSON` for the pane at index `i`
(source lines 300-309): the size is queried per-index from the engine, the
descriptor comes from the wrapper's own `toJSON`. -/
def emitView (pv : Paneview) (i : Nat) (view : PaneviewPanel) :
    SerializedPaneviewPanel :=
  { size := pv.getViewSize i
    data := view.toJSON
    minimumSize := view.minimumBodySize
    maximumSize := view.maximumBodySize
    expanded := some view.isExpanded }

/-- The indexed walk over the pane sequence performed by `toJSON`
(source lines 298-309, the `map` with index). -/
def serializeViews (pv : Paneview) : Nat → List PaneviewPanel →
    List SerializedPaneviewPanel
  | _, [] => []
  | i, view :: rest => emitView pv i view :: serializeViews pv (i + 1) rest

/-- The orchestrator's `toJSON` (source lines 297-315). -/
def PaneviewComponent.toJSON (s : PaneviewComponent) : SerializedPaneview :=
  { views := serializeViews s.paneview 0 s.paneview.getPanes
    size := s.paneview.size }

/-- One entry of the deferred-run queue built by `fromJSON` (source lines
372-381): the captured panel object (by identity) together with the `init`
parameters the closure will pass, and the panel id for bookkeeping. -/
structure QueuedInit where
  ref : Nat
  panelId : String
  prm : PanePanelInitParameter
deriving DecidableEq

/-- The `init` parameters a `fromJSON` queue entry carries for one serialized
view (source lines 373-380); note the double negation on `view.expanded`. -/
def prmOfView (v : SerializedPaneviewPanel) : PanePanelInitParameter :=
  { params := v.data.params
    minimumBodySize := v.minimumSize
    maximumBodySize := v.maximumSize
    isExpanded := some (v.expanded.getD false)
    title := v.data.title }

/-- The pane item `fromJSON` builds for one serialized view (source lines
363-370 and 383). -/
def mkItem (ref : Nat) (v : SerializedPaneviewPanel) : PaneItem :=
  { pane := mkPaneFramework ref v.data.id v.data.component v.data.headerComponent
    size := v.size }

/-- The queue entry `fromJSON` pushes for one serialized view. -/
def mkQueued (ref : Nat) (v : SerializedPaneviewPanel) : QueuedInit :=
  { ref := ref, panelId := v.data.id, prm := prmOfView v }

/-- The `views.map` body of `fromJSON` (source lines 327-384): resolve the
body renderer, resolve the header renderer (or fall back to
`DefaultHeader`), build the panel wrapper, and push its deferred `init` onto
the queue.  The first resolution failure aborts the whole construction. -/
def buildViews (opts : PaneviewComponentOptions) (ref : Nat) :
    List SerializedPaneviewPanel →
    Except ResolutionError (List (PaneItem × QueuedInit))
  | [] => Except.ok []
  | v :: rest =>
    match createComponent v.data.id v.data.component opts.components with
    | Except.error e => Except.error e
    | Except.ok _ =>
      match (match v.data.headerComponent with
             | some hk => createComponent v.data.id hk opts.headerComponents
             | none => Except.ok ()) with
      | Except.error e => Except.error e
      | Except.ok _ =>
        match buildViews opts (ref + 1) rest with
        | Except.error e => Except.error e
        | Except.ok items => Except.ok ((mkItem ref v, mkQueued ref v) :: items)

/-- The pure value a successful `buildViews` returns. -/
def buildPure (ref : Nat) :
    List SerializedPaneviewPanel → List (PaneItem × QueuedInit)
  | [] => []
  | v :: rest => (mkItem ref v, mkQueued ref v) :: buildPure (ref + 1) rest

/-- Running the deferred-init queue (the `forEach` on source lines 392 and
395): each closure calls `init` on its captured panel object. -/
def PaneviewComponent.applyQueue (s : PaneviewComponent)
    (q : List QueuedInit) : PaneviewComponent :=
  q.foldl
    (fun st qi =>
      let pv' := st.paneview.updatePane qi.ref (fun p => p.init qi.prm)
      { st with paneview := pv' })
    s

/-- The observable outcome of a `fromJSON` call: whether construction
succeeded, the orchestrator state when the call returns (or when the
`ResolutionError` propagates out of it), and the deferred-init queue still
pending at that moment (empty in the synchronous mode, where the queue has
already run). -/
structure FromJSONResult where
  ok : Bool
  state : PaneviewComponent
  pending : List QueuedInit

/-- The orchestrator's `fromJSON` (source lines 317-397): dispose the current
Layout Engine first; construct a new engine pre-populated from the document
(renderers are created during this construction and a `ResolutionError`
escapes, leaving the already-disposed old engine in place); re-apply layout
with the orchestrator's current width and height; then run the queued
`init` calls synchronously, or leave them pending for the next scheduler
turn when `deferComponentLayout` is set. -/
def PaneviewComponent.fromJSON (s : PaneviewComponent)
    (data : SerializedPaneview) (deferComponentLayout : Bool) :
    FromJSONResult :=
  let sDisposed := { s with paneview := s.paneview.dispose }
  match buildViews s.options s.nextRef data.views with
  | Except.error _ => { ok := false, state := sDisposed, pending := [] }
  | Except.ok items =>
    let pv := Paneview.ofDescriptor Orientation.vertical data.size
      (items.map (fun x => x.1))
    let s1 := { sDisposed with
      paneview := pv
      nextRef := s.nextRef + items.length }
    let s2 := s1.layout s1.width s1.height
    let queue := items.map (fun x => x.2)
    if deferComponentLayout then
      { ok := true, state := s2, pending := queue }
    else
      { ok := true, state := s2.applyQueue queue, pending := [] }

/-- The orchestrator state `fromJSON` reaches after a successful
construction, at the point where the deferred queue is about to run (or to
be scheduled): the old engine replaced by the descriptor-built one and the
container layout re-applied with the orchestrator's current width and
height. -/
def fromJSONStateAux (s : PaneviewComponent) (data : SerializedPaneview)
    (items : List (PaneItem × QueuedInit)) : PaneviewComponent :=
  let pv := Paneview.ofDescriptor Orientation.vertical data.size
    (items.map (fun x => x.1))
  let s1 : PaneviewComponent :=
    { element := s.element
      options := s.options
      paneview := pv
      nextRef := s.nextRef + items.length }
  s1.layout s1.width s1.height

/-- The Layout Engine the synchronous `fromJSON(toJSON())` round trip ends up
holding: rebuilt from the serialized document with every panel freshly
constructed and then initialized from its own queue entry. -/
def pvRebuilt (s : PaneviewComponent) : Paneview :=
  { orientation := Orientation.vertical
    size := s.toJSON.size
    orthogonalSize := 0
    panes := (buildPure s.nextRef s.toJSON.views).map
      (fun x => { x.1 with pane := x.1.pane.init x.2.prm })
    disposed := false }

/-- One step of running the deferred queue, acting on the pane sequence:
the closure's `init` hits exactly the pane object it captured. -/
def updOne (qi : QueuedInit) (it : PaneItem) : PaneItem :=
  if it.pane.ref = qi.ref then { it with pane := it.pane.init qi.prm } else it

/-- Running the whole deferred queue over a pane sequence. -/
def foldUpd (q : List QueuedInit) (ps : List PaneItem) : List PaneItem :=
  q.foldl (fun acc qi => acc.map (updOne qi)) ps

/-- Orchestrator states reachable from a fresh container by a finite
sequence of `addPanel`, `movePanel` and `removePanel` operations (the state
space quantified over by the spec's round-trip property). -/
inductive Reachable : PaneviewComponent → Prop
  | create (element : Elem) (options : PaneviewComponentOptions) :
      Reachable (PaneviewComponent.create element options)
  | add (s : PaneviewComponent) (opts : AddPaneviewCompponentOptions)
      (s' : PaneviewComponent) (h : Reachable s)
      (hs : PaneviewComponent.addPanelState opts s = some s') : Reachable s'
  | move (s : PaneviewComponent) (i j : Nat) (h : Reachable s) :
      Reachable (s.movePanel i j)
  | remove (s : PaneviewComponent) (p : PaneviewPanel) (h : Reachable s) :
      Reachable (s.removePanel p)

/-- A panel whose component kinds the orchestrator's registries can
resolve. -/
def PanelResolvable (opts : PaneviewComponentOptions) (p : PaneviewPanel) :
    Prop :=
  p.component ∈ opts.components ∧
  ∀ hk, p.headerComponent = some hk → hk ∈ opts.headerComponents

/-- Structural invariant of reachable orchestrator states: the engine is
vertical, panel identities are fresh-bounded and pairwise distinct, and
every live panel was built through the registries. -/
def Inv (s : PaneviewComponent) : Prop :=
  s.paneview.orientation = Orientation.vertical ∧
  (∀ it ∈ s.paneview.panes, it.pane.ref < s.nextRef) ∧
  (s.paneview.panes.map (fun it => it.pane.ref)).Nodup ∧
  ∀ it ∈ s.paneview.panes, PanelResolvable s.options it.pane

/-- Sample registries: one body component kind, no header kinds. -/
def optsA : PaneviewComponentOptions :=
  { components := ["text"], headerComponents := [] }

/-- Sample detached root element. -/
def elemA : Elem := { parent := none }

/-- Sample fresh orchestrator. -/
def s0 : PaneviewComponent := PaneviewComponent.create elemA optsA

/-- Sample `addPanel` descriptor. -/
def addA : AddPaneviewCompponentOptions :=
  { id := "p1"
    component := "text"
    headerComponent := none
    params := some [("k", "v")]
    minimumBodySize := none
    maximumBodySize := none
    isExpanded := some true
    title := "One"
    index := none
    size := some 100 }

/-- Sample orchestrator holding one panel. -/
def sA : PaneviewComponent :=
  (PaneviewComponent.addPanelState addA s0).getD s0

/-- A foreign panel reference: a wrapper that is not (and never was) part of
`sA`'s pane sequence. -/
def pFar : PaneviewPanel := mkPaneFramework 99 "zz" "text" none

/-- The single pane item held by `sA`. -/
def itA : PaneItem :=
  (sA.paneview.panes[0]?).getD { pane := pFar, size := 0 }

/-- A serialized document whose single view names an unregistered component
kind. -/
def badDoc : SerializedPaneview :=
  { size := 100
    views := [{ size := 50
                data := { id := "x"
                          component := "bogus"
                          title := "X"
                          headerComponent := none
                          params := [] }
                minimumSize := none
                maximumSize := none
                expanded := none }] }

/-- The identity-and-kind skeleton of a pane item: the fields that panel
initialization and resizing never change. -/
def skel (it : PaneItem) : Nat × String × Option String :=
  (it.pane.ref, it.pane.component, it.pane.headerComponent)

lemma listInsertAt_perm {α : Type} (l : List α) (n : Nat) (a : α) :
    List.Perm (listInsertAt l n a) (a :: l) := by
  have h : List.Perm (l.take n ++ a :: l.drop n)
      (a :: (l.take n ++ l.drop n)) := List.perm_middle
  rwa [List.take_append_drop] at h

lemma mem_listInsertAt {α : Type} {l : List α} {n : Nat} {a b : α} :
    b ∈ listInsertAt l n a ↔ b = a ∨ b ∈ l := by
  rw [(listInsertAt_perm l n a).mem_iff, List.mem_cons]

lemma map_listInsertAt {α β : Type} (f : α → β) (l : List α) (n : Nat)
    (a : α) : (listInsertAt l n a).map f = listInsertAt (l.map f) n (f a) := by
  simp [listInsertAt, List.map_take, List.map_drop]

lemma listInsertAt_getElem?_self {α : Type} (l : List α) (n : Nat) (a : α)
    (h : n ≤ l.length) : (listInsertAt l n a)[n]? = some a := by
  unfold listInsertAt
  have hlen : (l.take n).length = n := by
    simp only [List.length_take]
    omega
  rw [List.getElem?_append_right (le_of_eq hlen), hlen, Nat.sub_self]
  simp

lemma nodup_listInsertAt {α : Type} {l : List α} {n : Nat} {a : α}
    (ha : a ∉ l) (hl : l.Nodup) : (listInsertAt l n a).Nodup :=
  (listInsertAt_perm l n a).nodup_iff.mpr (List.nodup_cons.mpr ⟨ha, hl⟩)

lemma findIdxOpt_none_iff {α : Type} {p : α → Bool} {l : List α} :
    findIdxOpt p l = none ↔ ∀ a ∈ l, ¬ p a = true := by
  induction l with
  | nil => simp [findIdxOpt]
  | cons a t ih =>
    by_cases h : p a
    · simp [findIdxOpt, h]
    · simp [findIdxOpt, h, ih]

lemma findIdxOpt_some {α : Type} {p : α → Bool} {l : List α} {i : Nat}
    (h : findIdxOpt p l = some i) :
    i < l.length ∧ ∃ a, l[i]? = some a ∧ p a = true := by
  induction l generalizing i with
  | nil => simp [findIdxOpt] at h
  | cons a t ih =>
    by_cases hp : p a
    · simp [findIdxOpt, hp] at h
      subst h
      exact ⟨by simp, a, by simp, hp⟩
    · simp [findIdxOpt, hp] at h
      obtain ⟨j, hj, rfl⟩ := h
      obtain ⟨hlt, b, hb, hpb⟩ := ih hj
      exact ⟨by simpa using Nat.succ_lt_succ hlt, b, by simpa using hb, hpb⟩

lemma not_mem_map_eraseIdx_of_nodup {α β : Type} (f : α → β) :
    ∀ (l : List α) (i : Nat) (a : α), (l.map f).Nodup → l[i]? = some a →
      f a ∉ (l.eraseIdx i).map f := by
  intro l
  induction l with
  | nil =>
    intro i a _ h
    simp at h
  | cons b t ih =>
    intro i a hn h
    have hn' : (∀ x ∈ t, ¬ f x = f b) ∧ (t.map f).Nodup := by simpa using hn
    cases i with
    | zero =>
      have hba : b = a := by simpa using h
      subst hba
      simp only [List.eraseIdx]
      intro hcontra
      obtain ⟨x, hx, hfx⟩ := List.mem_map.mp hcontra
      exact hn'.1 x hx hfx
    | succ i =>
      have ht : t[i]? = some a := by simpa using h
      intro hcontra
      simp only [List.eraseIdx, List.map_cons, List.mem_cons] at hcontra
      rcases hcontra with hcontra | hcontra
      · exact hn'.1 a (List.getElem?_mem ht) hcontra
      · exact ih i a hn'.2 ht hcontra

lemma createComponent_ok_mem {id kind : String} {reg : List String} {u : Unit}
    (h : createComponent id kind reg = Except.ok u) : kind ∈ reg := by
  by_cases hm : kind ∈ reg
  · exact hm
  · simp [createComponent, hm] at h

lemma createComponent_of_mem {id kind : String} {reg : List String}
    (hm : kind ∈ reg) : createComponent id kind reg = Except.ok () := by
  simp [createComponent, hm]

lemma updatePane_orientation (pv : Paneview) (ref : Nat)
    (f : PaneviewPanel → PaneviewPanel) :
    (pv.updatePane ref f).orientation = pv.orientation := rfl

lemma addPane_orientation (pv : Paneview) (pane : PaneviewPanel)
    (sizing : Sizing) (index : Option Nat) :
    (pv.addPane pane sizing index).orientation = pv.orientation := by
  cases sizing <;> rfl

lemma updatePane_map_skel (pv : Paneview) (ref : Nat)
    (f : PaneviewPanel → PaneviewPanel)
    (hf : ∀ p, (f p).ref = p.ref ∧ (f p).component = p.component ∧
      (f p).headerComponent = p.headerComponent) :
    (pv.updatePane ref f).panes.map skel = pv.panes.map skel := by
  show (pv.panes.map _).map skel = pv.panes.map skel
  rw [List.map_map]
  apply List.map_congr_left
  intro it _
  by_cases h : it.pane.ref = ref
  · simp only [Function.comp_apply, h, if_pos rfl, skel]
    obtain ⟨h1, h2, h3⟩ := hf it.pane
    simp [h1, h2, h3, h]
  · simp [Function.comp_apply, h, skel]

lemma addPane_map_skel (pv : Paneview) (pane : PaneviewPanel)
    (sizing : Sizing) (index : Option Nat) :
    (pv.addPane pane sizing index).panes.map skel =
      listInsertAt (pv.panes.map skel) (index.getD pv.panes.length)
        (pane.ref, pane.component, pane.headerComponent) := by
  cases sizing with
  | number sz =>
    show (listInsertAt pv.panes _ _).map skel = _
    rw [map_listInsertAt]
    rfl
  | distribute =>
    show (listInsertAt (pv.panes.map _) _ _).map skel = _
    rw [map_listInsertAt, List.map_map]
    rfl

lemma panes_ref_eq_skel_fst (l : List PaneItem) :
    l.map (fun it => it.pane.ref) = (l.map skel).map Prod.fst := by
  rw [List.map_map]
  rfl

lemma inv_create (element : Elem) (options : PaneviewComponentOptions) :
    Inv (PaneviewComponent.create element options) := by
  refine ⟨rfl, ?_, ?_, ?_⟩ <;> simp [PaneviewComponent.create, Paneview.create]

lemma addPanelState_elim {opts : AddPaneviewCompponentOptions}
    {s s' : PaneviewComponent}
    (h : PaneviewComponent.addPanelState opts s = some s') :
    opts.component ∈ s.options.components ∧
    (∀ hk, opts.headerComponent = some hk →
      hk ∈ s.options.headerComponents) ∧
    s'.element = s.element ∧ s'.options = s.options ∧
    s'.nextRef = s.nextRef + 1 ∧
    s'.paneview.orientation = s.paneview.orientation ∧
    s'.paneview.panes.map skel =
      listInsertAt (s.paneview.panes.map skel)
        (opts.index.getD s.paneview.panes.length)
        (s.nextRef, opts.component, opts.headerComponent) := by
  unfold PaneviewComponent.addPanelState PaneviewComponent.addPanel at h
  cases hb : createComponent opts.id opts.component s.options.components with
  | error e => rw [hb] at h; simp at h
  | ok u =>
    rw [hb] at h
    cases hh : (match opts.headerComponent with
                | some hk =>
                    createComponent opts.id hk s.options.headerComponents
                | none => Except.ok ()) with
    | error e => rw [hh] at h; simp at h
    | ok u2 =>
      rw [hh] at h
      simp only [Option.some.injEq] at h
      subst h
      refine ⟨createComponent_ok_mem hb, ?_, rfl, rfl, rfl, ?_, ?_⟩
      · intro hk hhk
        rw [hhk] at hh
        exact createComponent_ok_mem hh
      · rw [updatePane_orientation, updatePane_orientation,
          addPane_orientation]
      · rw [updatePane_map_skel, updatePane_map_skel, addPane_map_skel]
        · rfl
        · intro p
          exact ⟨rfl, rfl, rfl⟩
        · intro p
          exact ⟨rfl, rfl, rfl⟩

lemma inv_movePanel {s : PaneviewComponent} (hs : Inv s) (i j : Nat) :
    Inv (s.movePanel i j) := by
  obtain ⟨ho, hb, hn, hr⟩ := hs
  unfold PaneviewComponent.movePanel Paneview.moveView
  cases hit : s.paneview.panes[i]? with
  | none => exact ⟨ho, hb, hn, hr⟩
  | some it =>
    have hmem : ∀ x ∈ listInsertAt (s.paneview.panes.eraseIdx i) j it,
        x ∈ s.paneview.panes := by
      intro x hx
      rcases mem_listInsertAt.mp hx with rfl | hx
      · exact List.getElem?_mem hit
      · exact (List.eraseIdx_sublist s.paneview.panes i).subset hx
    refine ⟨ho, ?_, ?_, ?_⟩
    · intro x hx
      exact hb x (hmem x hx)
    · show (listInsertAt (s.paneview.panes.eraseIdx i) j it).map
        (fun x => x.pane.ref) |>.Nodup
      rw [map_listInsertAt]
      apply nodup_listInsertAt
      · exact not_mem_map_eraseIdx_of_nodup _ s.paneview.panes i it hn hit
      · exact hn.sublist ((List.eraseIdx_sublist s.paneview.panes i).map _)
    · intro x hx
      exact hr x (hmem x hx)

lemma inv_paneview_removePane (s : PaneviewComponent) (hs : Inv s)
    (idx : Int) : Inv { s with paneview := s.paneview.removePane idx } := by
  obtain ⟨ho, hb, hn, hr⟩ := hs
  unfold Paneview.removePane
  split
  · refine ⟨ho, ?_, ?_, ?_⟩
    · intro x hx
      exact hb x ((List.eraseIdx_sublist s.paneview.panes _).subset hx)
    · exact hn.sublist ((List.eraseIdx_sublist s.paneview.panes _).map _)
    · intro x hx
      exact hr x ((List.eraseIdx_sublist s.paneview.panes _).subset hx)
  · exact ⟨ho, hb, hn, hr⟩

lemma inv_removePanel {s : PaneviewComponent} (hs : Inv s)
    (p : PaneviewPanel) : Inv (s.removePanel p) :=
  inv_paneview_removePane s hs _

lemma reachable_inv {s : PaneviewComponent} (h : Reachable s) : Inv s := by
  induction h with
  | create e o => exact inv_create e o
  | move s i j hr ih => exact inv_movePanel ih i j
  | remove s p hr ih => exact inv_removePanel ih p
  | add s opts s' hr hs ih =>
    obtain ⟨hc, hh, he, hopt, hnr, hor, hsk⟩ := addPanelState_elim hs
    obtain ⟨ho, hb, hn, hres⟩ := ih
    refine ⟨by rw [hor]; exact ho, ?_, ?_, ?_⟩
    · intro it hit
      have hm : skel it ∈ s'.paneview.panes.map skel :=
        List.mem_map_of_mem skel hit
      rw [hsk] at hm
      rw [hnr]
      rcases mem_listInsertAt.mp hm with h1 | h1
      · have hrf : it.pane.ref = s.nextRef := congrArg Prod.fst h1
        omega
      · obtain ⟨it0, hit0, hsk0⟩ := List.mem_map.mp h1
        have hrf : it0.pane.ref = it.pane.ref := congrArg Prod.fst hsk0
        have := hb it0 hit0
        omega
    · rw [panes_ref_eq_skel_fst, hsk, map_listInsertAt]
      apply nodup_listInsertAt
      · rw [← panes_ref_eq_skel_fst]
        intro hmem
        obtain ⟨it0, hit0, href⟩ := List.mem_map.mp hmem
        have := hb it0 hit0
        omega
      · rw [← panes_ref_eq_skel_fst]
        exact hn
    · intro it hit
      have hm : skel it ∈ s'.paneview.panes.map skel :=
        List.mem_map_of_mem skel hit
      rw [hsk] at hm
      rw [hopt]
      rcases mem_listInsertAt.mp hm with h1 | h1
      · have h1' : it.pane.ref = s.nextRef ∧ it.pane.component = opts.component
            ∧ it.pane.headerComponent = opts.headerComponent := by
          simpa [skel, Prod.ext_iff] using h1
        constructor
        · rw [h1'.2.1]
          exact hc
        · intro hk hhk
          rw [h1'.2.2] at hhk
          exact hh hk hhk
      · obtain ⟨it0, hit0, hsk0⟩ := List.mem_map.mp h1
        have h1' : it0.pane.ref = it.pane.ref ∧
            it0.pane.component = it.pane.component ∧
            it0.pane.headerComponent = it.pane.headerComponent := by
          simpa [skel, Prod.ext_iff] using hsk0
        obtain ⟨hres1, hres2⟩ := hres it0 hit0
        constructor
        · rw [← h1'.2.1]
          exact hres1
        · intro hk hhk
          rw [← h1'.2.2] at hhk
          exact hres2 hk hhk

lemma removePanel_absent (s : PaneviewComponent) (p : PaneviewPanel)
    (h : ∀ q ∈ s.getPanels, q.ref ≠ p.ref) : s.removePanel p = s := by
  have hfind : findIdxOpt (fun v => v.ref == p.ref) s.getPanels = none := by
    rw [findIdxOpt_none_iff]
    intro a ha
    simpa using h a ha
  unfold PaneviewComponent.removePanel
  simp only [hfind]
  have hneg : ¬ ((0 : Int) ≤ (-1 : Int) ∧
      ((-1 : Int)).toNat < s.paneview.panes.length) := by
    intro hcontra
    omega
  simp only [Paneview.removePane, if_neg hneg]

/-- C7: whenever the orchestrator's root element is detached (no parent
element), `resizeToFit` is a silent no-op: it performs no layout call, reads
no bounding box, and leaves the whole orchestrator state (Layout Engine
included) unchanged. -/
theorem resizeToFit_detached_noop (s : PaneviewComponent)
    (h : s.element.parent = none) : s.resizeToFit = s := by
  unfold PaneviewComponent.resizeToFit
  rw [h]

/-- Witness for `resizeToFit_detached_noop` at the concrete detached
orchestrator `s0`. -/
theorem resizeToFit_detached_noop_witness : s0.resizeToFit = s0 :=
  resizeToFit_detached_noop s0 rfl

/-- C9: a click on a freshly constructed `DefaultHeader` (its control-surface
reference still null, `init` not yet run) is a harmless no-op, and a click
after `init` writes back the negation of the current expansion flag. -/
theorem defaultHeader_click_safe (h : DefaultHeader) (api : PanePanelApi)
    (title : String) :
    DefaultHeader.create.click = DefaultHeader.create ∧
    (h.init api title).click =
      { h.init api title with
        apiRef := some (api.setExpanded (!api.isExpanded)) } :=
  ⟨rfl, rfl⟩

/-- C10: whatever `addPanel` call succeeds, invoking `dispose` on the handle
it returns changes nothing: the handle's `dispose` is the identity on
orchestrator states (it removes no panel, disposes no renderer). -/
theorem addPanel_dispose_noop (s : PaneviewComponent)
    (opts : AddPaneviewCompponentOptions)
    (r : PaneviewComponent × DisposableHandle)
    (h : s.addPanel opts = Except.ok r) (t : PaneviewComponent) :
    r.2.dispose t = t := by
  unfold PaneviewComponent.addPanel at h
  cases hb : createComponent opts.id opts.component s.options.components with
  | error e => rw [hb] at h; simp at h
  | ok u =>
    rw [hb] at h
    cases hh : (match opts.headerComponent with
                | some hk =>
                    createComponent opts.id hk s.options.headerComponents
                | none => Except.ok ()) with
    | error e => rw [hh] at h; simp at h
    | ok u2 =>
      rw [hh] at h
      simp only [Except.ok.injEq] at h
      rw [← h]

/-- Witness for `addPanel_dispose_noop` at the concrete `addPanel` call that
builds `sA`. -/
theorem addPanel_dispose_noop_witness :
    DisposableHandle.dispose { dispose := fun t => t } sA = sA :=
  addPanel_dispose_noop s0 addA (sA, { dispose := fun t => t }) rfl sA

/-- C6: `layout(width, height)` forwards to the Layout Engine the pair
determined by orientation — `(width, height)` for a horizontal engine,
`(height, width)` for a vertical one — and since every reachable
orchestrator holds a vertical engine, `layout` always forwards
`(height, width)` there. -/
theorem layout_axis_swap (s : PaneviewComponent) (w h : Nat)
    (hr : Reachable s) :
    (∀ t : PaneviewComponent,
      t.paneview.orientation = Orientation.horizontal →
      t.layout w h = { t with paneview := t.paneview.layout w h }) ∧
    (∀ t : PaneviewComponent,
      t.paneview.orientation = Orientation.vertical →
      t.layout w h = { t with paneview := t.paneview.layout h w }) ∧
    s.layout w h = { s with paneview := s.paneview.layout h w } := by
  have hgen : ∀ t : PaneviewComponent,
      t.paneview.orientation = Orientation.vertical →
      t.layout w h = { t with paneview := t.paneview.layout h w } := by
    intro t ht
    unfold PaneviewComponent.layout
    rw [ht]
    simp
  refine ⟨?_, hgen, hgen s (reachable_inv hr).1⟩
  intro t ht
  unfold PaneviewComponent.layout
  rw [ht]
  simp

/-- Witness for `layout_axis_swap` at the concrete reachable state `sA`. -/
theorem layout_axis_swap_witness :
    (∀ t : PaneviewComponent,
      t.paneview.orientation = Orientation.horizontal →
      t.layout 3 5 = { t with paneview := t.paneview.layout 3 5 }) ∧
    (∀ t : PaneviewComponent,
      t.paneview.orientation = Orientation.vertical →
      t.layout 3 5 = { t with paneview := t.paneview.layout 5 3 }) ∧
    sA.layout 3 5 = { sA with paneview := sA.paneview.layout 5 3 } :=
  layout_axis_swap sA 3 5
    (Reachable.add s0 addA sA (Reachable.create elemA optsA) rfl)

/-- C1: on every reachable orchestrator state, `removePanel` with a panel
reference not present in the current ordered panel sequence (including an
already-removed one) is a no-op — it changes no orchestrator or Layout
Engine state and raises no error — and in particular calling `removePanel`
twice with the same reference has no effect the second time. -/
theorem removePanel_idempotent (s : PaneviewComponent) (p : PaneviewPanel)
    (hr : Reachable s) :
    ((∀ q ∈ s.getPanels, q.ref ≠ p.ref) → s.removePanel p = s) ∧
    (s.removePanel p).removePanel p = s.removePanel p := by
  refine ⟨removePanel_absent s p, ?_⟩
  cases hfind : findIdxOpt (fun v => v.ref == p.ref) s.getPanels with
  | none =>
    have habs : ∀ q ∈ s.getPanels, q.ref ≠ p.ref := by
      intro q hq
      have := findIdxOpt_none_iff.mp hfind q hq
      simpa using this
    rw [removePanel_absent s p habs]
    exact removePanel_absent s p habs
  | some i =>
    obtain ⟨hi, v, hv, hpv⟩ := findIdxOpt_some hfind
    have hpvref : v.ref = p.ref := by simpa using hpv
    obtain ⟨itI, hitI, hitIv⟩ : ∃ itI, s.paneview.panes[i]? = some itI ∧
        itI.pane = v := by
      have : (s.paneview.panes.map (fun x => x.pane))[i]? = some v := hv
      rw [List.getElem?_map] at this
      cases hx : s.paneview.panes[i]? with
      | none => rw [hx] at this; simp at this
      | some itI =>
        rw [hx] at this
        simp only [Option.map_some', Option.some.injEq] at this
        exact ⟨itI, rfl, this⟩
    have hlen : s.getPanels.length = s.paneview.panes.length := by
      simp [PaneviewComponent.getPanels, Paneview.getPanes]
    have hcond : (0 : Int) ≤ (i : Int) ∧
        ((i : Int)).toNat < s.paneview.panes.length := by
      constructor
      · exact Int.ofNat_nonneg i
      · rw [Int.toNat_ofNat]
        omega
    have hs' : s.removePanel p =
        { s with paneview :=
          { s.paneview with panes := s.paneview.panes.eraseIdx i } } := by
      unfold PaneviewComponent.removePanel
      simp only [hfind]
      unfold Paneview.removePane
      rw [if_pos]
      · simp
      · simpa using hcond
    rw [hs']
    apply removePanel_absent
    intro q hq
    obtain ⟨it0, hit0, rfl⟩ := List.mem_map.mp hq
    have hnodup := (reachable_inv hr).2.2.1
    have hnotmem :=
      not_mem_map_eraseIdx_of_nodup (fun x => x.pane.ref)
        s.paneview.panes i itI hnodup hitI
    intro hcontra
    apply hnotmem
    show itI.pane.ref ∈ List.map (fun x => x.pane.ref)
      (s.paneview.panes.eraseIdx i)
    have heq : itI.pane.ref = it0.pane.ref := by
      rw [hitIv, hpvref, ← hcontra]
    rw [heq]
    exact List.mem_map_of_mem _ hit0

/-- Witness for `removePanel_idempotent` at the concrete reachable state
`sA` and the foreign panel reference `pFar`. -/
theorem removePanel_idempotent_witness :
    ((∀ q ∈ sA.getPanels, q.ref ≠ pFar.ref) → sA.removePanel pFar = sA) ∧
    (sA.removePanel pFar).removePanel pFar = sA.removePanel pFar :=
  removePanel_idempotent sA pFar
    (Reachable.add s0 addA sA (Reachable.create elemA optsA) rfl)

lemma serializeViews_length (pv : Paneview) (l : List PaneviewPanel) :
    ∀ i : Nat, (serializeViews pv i l).length = l.length := by
  induction l with
  | nil => intro i; rfl
  | cons v rest ih =>
    intro i
    simp [serializeViews, ih]

lemma serializeViews_getElem (pv : Paneview) (l : List PaneviewPanel) :
    ∀ i j : Nat, (serializeViews pv i l)[j]? =
      l[j]?.map (fun v => emitView pv (i + j) v) := by
  induction l with
  | nil => intro i j; simp [serializeViews]
  | cons v rest ih =>
    intro i j
    cases j with
    | zero => simp [serializeViews]
    | succ j =>
      have : i + 1 + j = i + (j + 1) := by omega
      simp [serializeViews, ih (i + 1) j, this]

/-- C8: `toJSON` emits exactly one serialized view per live panel, in visual
order; the i-th view's size is queried per-index from the Layout Engine via
`getViewSize i` (not read from the panel), and the document's top-level size
is the Layout Engine's current size. -/
theorem toJSON_shape (s : PaneviewComponent) (i : Nat) (it : PaneItem)
    (h : s.paneview.panes[i]? = some it) :
    s.toJSON.size = s.paneview.size ∧
    s.toJSON.views.length = s.paneview.panes.length ∧
    s.toJSON.views[i]? = some
      { size := s.paneview.getViewSize i
        data := it.pane.toJSON
        minimumSize := it.pane.minimumBodySize
        maximumSize := it.pane.maximumBodySize
        expanded := some it.pane.isExpanded } := by
  refine ⟨rfl, ?_, ?_⟩
  · show (serializeViews s.paneview 0 s.paneview.getPanes).length = _
    rw [serializeViews_length]
    simp [Paneview.getPanes]
  · show (serializeViews s.paneview 0 s.paneview.getPanes)[i]? = _
    rw [serializeViews_getElem]
    unfold Paneview.getPanes
    rw [List.getElem?_map, h]
    simp only [Option.map_some', Option.some.injEq]
    show emitView s.paneview (0 + i) it.pane = _
    rw [Nat.zero_add]
    rfl

/-- Witness for `toJSON_shape` at the concrete state `sA`, index `0` and its
pane item `itA`. -/
theorem toJSON_shape_witness :
    sA.toJSON.size = sA.paneview.size ∧
    sA.toJSON.views.length = sA.paneview.panes.length ∧
    sA.toJSON.views[0]? = some
      { size := sA.paneview.getViewSize 0
        data := itA.pane.toJSON
        minimumSize := itA.pane.minimumBodySize
        maximumSize := itA.pane.maximumBodySize
        expanded := some itA.pane.isExpanded } :=
  toJSON_shape sA 0 itA rfl

lemma updatePane_getElem (pv : Paneview) (ref : Nat)
    (f : PaneviewPanel → PaneviewPanel) (n : Nat) :
    (pv.updatePane ref f).panes[n]? = pv.panes[n]?.map (fun it =>
      if it.pane.ref = ref then { it with pane := f it.pane } else it) := by
  show (pv.panes.map _)[n]? = _
  rw [List.getElem?_map]

lemma addPane_getElem_self (pv : Paneview) (pane : PaneviewPanel)
    (sizing : Sizing) (index : Option Nat) (n : Nat)
    (hn : n = index.getD pv.panes.length) (hle : n ≤ pv.panes.length) :
    (pv.addPane pane sizing index).panes[n]? =
      some { pane := pane
             size := match sizing with
                     | Sizing.number sz => sz
                     | Sizing.distribute =>
                         pv.size / (pv.panes.length + 1) } := by
  cases sizing with
  | number sz =>
    show (listInsertAt pv.panes (index.getD pv.panes.length) _)[n]? = _
    rw [← hn]
    exact listInsertAt_getElem?_self _ n _ hle
  | distribute =>
    show (listInsertAt (pv.panes.map _) (index.getD pv.panes.length) _)[n]? = _
    rw [← hn]
    apply listInsertAt_getElem?_self
    rw [List.length_map]
    exact hle

/-- C5: for every `addPanel` descriptor, an explicit numeric `size` makes the
panel enter the Layout Engine with exactly that pixel size while an absent
`size` selects the distribute-evenly sizing mode, and an explicit numeric
`index` places the new panel at that position while an absent `index`
appends it (the index argument is passed as absent). -/
theorem addPanel_sizing_and_index (s : PaneviewComponent)
    (opts : AddPaneviewCompponentOptions)
    (r : PaneviewComponent × DisposableHandle)
    (h : s.addPanel opts = Except.ok r) :
    ((∀ n, opts.size = some n → sizingOf opts = Sizing.number n) ∧
     (opts.size = none → sizingOf opts = Sizing.distribute)) ∧
    (∀ i, opts.index = some i → i ≤ s.paneview.panes.length →
      ∃ it, r.1.paneview.panes[i]? = some it ∧ it.pane.ref = s.nextRef ∧
        it.pane.id = opts.id ∧ (∀ n, opts.size = some n → it.size = n) ∧
        (opts.size = none →
          it.size = s.paneview.size / (s.paneview.panes.length + 1))) ∧
    (opts.index = none →
      ∃ it, r.1.paneview.panes[s.paneview.panes.length]? = some it ∧
        it.pane.ref = s.nextRef ∧ it.pane.id = opts.id ∧
        (∀ n, opts.size = some n → it.size = n) ∧
        (opts.size = none →
          it.size = s.paneview.size / (s.paneview.panes.length + 1))) := by
  refine ⟨⟨?_, ?_⟩, ?_⟩
  · intro n hn
    simp [sizingOf, hn]
  · intro hn
    simp [sizingOf, hn]
  unfold PaneviewComponent.addPanel at h
  cases hb : createComponent opts.id opts.component s.options.components with
  | error e => rw [hb] at h; simp at h
  | ok u =>
    rw [hb] at h
    cases hh : (match opts.headerComponent with
                | some hk =>
                    createComponent opts.id hk s.options.headerComponents
                | none => Except.ok ()) with
    | error e => rw [hh] at h; simp at h
    | ok u2 =>
      rw [hh] at h
      simp only [Except.ok.injEq] at h
      subst h
      constructor
      · intro i hi hile
        have hkey := addPane_getElem_self s.paneview
          (mkPaneFramework s.nextRef opts.id opts.component
            opts.headerComponent)
          (sizingOf opts) opts.index i (by rw [hi]; rfl) hile
        rw [updatePane_getElem, updatePane_getElem, hkey]
        refine ⟨_, rfl, ?_, ?_, ?_, ?_⟩
        · simp [mkPaneFramework, PaneviewPanel.init]
        · simp [mkPaneFramework, PaneviewPanel.init]
        · intro n hn
          simp [mkPaneFramework, PaneviewPanel.init, sizingOf, hn]
        · intro hn
          simp [mkPaneFramework, PaneviewPanel.init, sizingOf, hn]
      · intro hi
        have hkey := addPane_getElem_self s.paneview
          (mkPaneFramework s.nextRef opts.id opts.component
            opts.headerComponent)
          (sizingOf opts) opts.index s.paneview.panes.length
          (by rw [hi]; rfl) (Nat.le_refl _)
        rw [updatePane_getElem, updatePane_getElem, hkey]
        refine ⟨_, rfl, ?_, ?_, ?_, ?_⟩
        · simp [mkPaneFramework, PaneviewPanel.init]
        · simp [mkPaneFramework, PaneviewPanel.init]
        · intro n hn
          simp [mkPaneFramework, PaneviewPanel.init, sizingOf, hn]
        · intro hn
          simp [mkPaneFramework, PaneviewPanel.init, sizingOf, hn]

/-- Witness for `addPanel_sizing_and_index` at the concrete call that builds
`sA` (explicit size, absent index). -/
theorem addPanel_sizing_and_index_witness :
    ((∀ n, addA.size = some n → sizingOf addA = Sizing.number n) ∧
     (addA.size = none → sizingOf addA = Sizing.distribute)) ∧
    (∀ i, addA.index = some i → i ≤ s0.paneview.panes.length →
      ∃ it, sA.paneview.panes[i]? = some it ∧ it.pane.ref = s0.nextRef ∧
        it.pane.id = addA.id ∧ (∀ n, addA.size = some n → it.size = n) ∧
        (addA.size = none →
          it.size = s0.paneview.size / (s0.paneview.panes.length + 1))) ∧
    (addA.index = none →
      ∃ it, sA.paneview.panes[s0.paneview.panes.length]? = some it ∧
        it.pane.ref = s0.nextRef ∧ it.pane.id = addA.id ∧
        (∀ n, addA.size = some n → it.size = n) ∧
        (addA.size = none →
          it.size = s0.paneview.size / (s0.paneview.panes.length + 1))) :=
  addPanel_sizing_and_index s0 addA (sA, { dispose := fun t => t }) rfl

lemma buildViews_ok_eq (opts : PaneviewComponentOptions) :
    ∀ (views : List SerializedPaneviewPanel) (ref : Nat)
      (items : List (PaneItem × QueuedInit)),
      buildViews opts ref views = Except.ok items →
      items = buildPure ref views := by
  intro views
  induction views with
  | nil =>
    intro ref items h
    simpa [buildViews, buildPure] using h.symm
  | cons v rest ih =>
    intro ref items h
    unfold buildViews at h
    cases hb : createComponent v.data.id v.data.component opts.components with
    | error e => rw [hb] at h; simp at h
    | ok u =>
      rw [hb] at h
      cases hh : (match v.data.headerComponent with
                  | some hk =>
                      createComponent v.data.id hk opts.headerComponents
                  | none => Except.ok ()) with
      | error e => rw [hh] at h; simp at h
      | ok u2 =>
        rw [hh] at h
        cases hrec : buildViews opts (ref + 1) rest with
        | error e => rw [hrec] at h; simp at h
        | ok its =>
          rw [hrec] at h
          simp only [Except.ok.injEq] at h
          rw [← h, buildPure, ih (ref + 1) its hrec]

lemma buildViews_ok_of_resolvable (opts : PaneviewComponentOptions) :
    ∀ (views : List SerializedPaneviewPanel) (ref : Nat),
      (∀ v ∈ views, v.data.component ∈ opts.components ∧
        ∀ hk, v.data.headerComponent = some hk →
          hk ∈ opts.headerComponents) →
      buildViews opts ref views = Except.ok (buildPure ref views) := by
  intro views
  induction views with
  | nil => intro ref _; rfl
  | cons v rest ih =>
    intro ref hres
    obtain ⟨hc, hh⟩ := hres v (List.mem_cons_self v rest)
    have hrest := fun x hx => hres x (List.mem_cons_of_mem v hx)
    unfold buildViews
    rw [createComponent_of_mem hc]
    have hhdr : (match v.data.headerComponent with
                 | some hk =>
                     createComponent v.data.id hk opts.headerComponents
                 | none => Except.ok ()) = Except.ok () := by
      cases hv : v.data.headerComponent with
      | none => rfl
      | some hk => exact createComponent_of_mem (hh hk hv)
    rw [hhdr, ih (ref + 1) hrest]
    rfl

lemma buildPure_length :
    ∀ (views : List SerializedPaneviewPanel) (ref : Nat),
      (buildPure ref views).length = views.length := by
  intro views
  induction views with
  | nil => intro ref; rfl
  | cons v rest ih =>
    intro ref
    simp [buildPure, ih (ref + 1)]

lemma buildPure_getElem :
    ∀ (views : List SerializedPaneviewPanel) (ref j : Nat),
      (buildPure ref views)[j]? = views[j]?.map
        (fun v => (mkItem (ref + j) v, mkQueued (ref + j) v)) := by
  intro views
  induction views with
  | nil => intro ref j; simp [buildPure]
  | cons v rest ih =>
    intro ref j
    cases j with
    | zero => simp [buildPure]
    | succ j =>
      have harith : ref + 1 + j = ref + (j + 1) := by omega
      simp [buildPure, ih (ref + 1) j, harith]

lemma buildPure_map_panelId :
    ∀ (views : List SerializedPaneviewPanel) (ref : Nat),
      (buildPure ref views).map (fun x => x.2.panelId) =
        views.map (fun v => v.data.id) := by
  intro views
  induction views with
  | nil => intro ref; rfl
  | cons v rest ih =>
    intro ref
    simp [buildPure, mkQueued, ih (ref + 1)]

lemma buildPure_fst_uninit :
    ∀ (views : List SerializedPaneviewPanel) (ref : Nat),
      ∀ x ∈ buildPure ref views, x.1.pane.initialized = false := by
  intro views
  induction views with
  | nil =>
    intro ref x hx
    simp [buildPure] at hx
  | cons v rest ih =>
    intro ref x hx
    rcases (List.mem_cons.mp hx) with rfl | hx
    · rfl
    · exact ih (ref + 1) x hx

lemma layout_panes_pane (pv : Paneview) (a b : Nat) :
    (pv.layout a b).panes.map (fun it => it.pane) =
      pv.panes.map (fun it => it.pane) := by
  unfold Paneview.layout
  by_cases hc : pv.size = a
  · simp [hc]
  · simp only [if_neg hc]
    rw [List.map_map]
    rfl

lemma fromJSON_error_eq (s : PaneviewComponent) (data : SerializedPaneview)
    (defer : Bool) (e : ResolutionError)
    (hbv : buildViews s.options s.nextRef data.views = Except.error e) :
    s.fromJSON data defer =
      { ok := false
        state := { s with paneview := s.paneview.dispose }
        pending := [] } := by
  unfold PaneviewComponent.fromJSON
  rw [hbv]

lemma fromJSON_ok_eq (s : PaneviewComponent) (data : SerializedPaneview)
    (defer : Bool) (items : List (PaneItem × QueuedInit))
    (hbv : buildViews s.options s.nextRef data.views = Except.ok items) :
    s.fromJSON data defer =
      if defer then
        { ok := true
          state := fromJSONStateAux s data items
          pending := items.map (fun x => x.2) }
      else
        { ok := true
          state := (fromJSONStateAux s data items).applyQueue
            (items.map (fun x => x.2))
          pending := [] } := by
  unfold PaneviewComponent.fromJSON
  rw [hbv]
  rfl

lemma fromJSONStateAux_paneview (s : PaneviewComponent)
    (data : SerializedPaneview) (items : List (PaneItem × QueuedInit)) :
    (fromJSONStateAux s data items).paneview =
      { orientation := Orientation.vertical
        size := data.size
        orthogonalSize := 0
        panes := items.map (fun x => x.1)
        disposed := false } := by
  unfold fromJSONStateAux PaneviewComponent.layout
  simp [PaneviewComponent.width, PaneviewComponent.height,
    Paneview.ofDescriptor, Paneview.layout]

/-- C2 is refuted by the code: `fromJSON` disposes the previous Layout Engine
before constructing the new generation, so when construction fails on an
unregistered component kind the orchestrator is left holding its old engine
in a disposed state (no valid new state was swapped in), contradicting the
claim that the old generation survives a mid-construction failure.  Here
`sA.fromJSON badDoc` fails (the document names the unknown kind `bogus`),
yet the state after the call has `paneview.disposed = true` although `sA`'s
engine was live before the call. -/
theorem fromJSON_midFailure_disposes_old :
    (sA.fromJSON badDoc false).ok = false ∧
    (sA.fromJSON badDoc false).state.paneview.disposed = true ∧
    sA.paneview.disposed = false ∧
    (sA.fromJSON badDoc false).state.paneview.panes = sA.paneview.panes := by
  decide

/-- C4: for every serialized document fed to `fromJSON` with
`deferComponentLayout = true` (and successfully constructed), the pending
deferred queue holds exactly one `init` per panel of the document, in the
document's left-to-right view order, and when the `fromJSON` call returns
none of those `init` calls has run yet: every freshly constructed panel is
still uninitialized. -/
theorem fromJSON_defer_order (s : PaneviewComponent)
    (data : SerializedPaneview)
    (h : (s.fromJSON data true).ok = true) :
    (s.fromJSON data true).pending.map (fun q => q.panelId) =
      data.views.map (fun v => v.data.id) ∧
    ∀ it ∈ (s.fromJSON data true).state.paneview.panes,
      it.pane.initialized = false := by
  cases hbv : buildViews s.options s.nextRef data.views with
  | error e =>
    rw [fromJSON_error_eq s data true e hbv] at h
    simp at h
  | ok items =>
    have hitems := buildViews_ok_eq s.options data.views s.nextRef items hbv
    subst hitems
    rw [fromJSON_ok_eq s data true _ hbv, if_pos rfl]
    constructor
    · rw [List.map_map]
      exact buildPure_map_panelId data.views s.nextRef
    · intro it hit
      rw [fromJSONStateAux_paneview] at hit
      simp only [List.mem_map] at hit
      obtain ⟨x, hx, rfl⟩ := hit
      exact buildPure_fst_uninit data.views s.nextRef x hx

/-- Witness for `fromJSON_defer_order` at the concrete state `sA` and the
document `sA.toJSON`. -/
theorem fromJSON_defer_order_witness :
    (sA.fromJSON sA.toJSON true).pending.map (fun q => q.panelId) =
      sA.toJSON.views.map (fun v => v.data.id) ∧
    ∀ it ∈ (sA.fromJSON sA.toJSON true).state.paneview.panes,
      it.pane.initialized = false :=
  fromJSON_defer_order sA sA.toJSON (by decide)

lemma applyQueue_eq (q : List QueuedInit) :
    ∀ s : PaneviewComponent, s.applyQueue q =
      { s with paneview :=
        { s.paneview with panes := foldUpd q s.paneview.panes } } := by
  induction q with
  | nil => intro s; rfl
  | cons qi q ih =>
    intro s
    show PaneviewComponent.applyQueue
      { s with paneview :=
        s.paneview.updatePane qi.ref (fun p => p.init qi.prm) } q = _
    rw [ih]
    rfl

lemma map_updOne_skip {qi : QueuedInit} :
    ∀ {ps : List PaneItem}, (∀ it ∈ ps, it.pane.ref ≠ qi.ref) →
      ps.map (updOne qi) = ps := by
  intro ps
  induction ps with
  | nil => intro _; rfl
  | cons a t ih =>
    intro h
    have ha : updOne qi a = a := by
      unfold updOne
      rw [if_neg (h a (List.mem_cons_self a t))]
    simp only [List.map_cons, ha,
      ih (fun it hit => h it (List.mem_cons_of_mem a hit))]

lemma foldUpd_cons_head (q : List QueuedInit) :
    ∀ (a : PaneItem) (ps : List PaneItem),
      foldUpd q (a :: ps) =
        (q.foldl (fun x qi => updOne qi x) a) :: foldUpd q ps := by
  induction q with
  | nil => intro a ps; rfl
  | cons qi q ih =>
    intro a ps
    show foldUpd q (updOne qi a :: ps.map (updOne qi)) = _
    rw [ih]
    rfl

lemma foldl_updOne_skip :
    ∀ (q : List QueuedInit) (a : PaneItem),
      (∀ qi ∈ q, a.pane.ref ≠ qi.ref) →
      q.foldl (fun x qi => updOne qi x) a = a := by
  intro q
  induction q with
  | nil => intro a _; rfl
  | cons qi q ih =>
    intro a h
    show q.foldl _ (updOne qi a) = a
    have ha : updOne qi a = a := by
      unfold updOne
      rw [if_neg (h qi (List.mem_cons_self qi q))]
    rw [ha]
    exact ih a (fun qj hj => h qj (List.mem_cons_of_mem qi hj))

lemma buildPure_refs_ge :
    ∀ (views : List SerializedPaneviewPanel) (base : Nat),
      ∀ x ∈ buildPure base views,
        base ≤ x.1.pane.ref ∧ x.1.pane.ref = x.2.ref := by
  intro views
  induction views with
  | nil =>
    intro base x hx
    simp [buildPure] at hx
  | cons v rest ih =>
    intro base x hx
    rcases List.mem_cons.mp hx with rfl | hx
    · exact ⟨Nat.le_refl _, rfl⟩
    · have := ih (base + 1) x hx
      exact ⟨by omega, this.2⟩

lemma foldUpd_buildPure :
    ∀ (views : List SerializedPaneviewPanel) (base : Nat),
      foldUpd ((buildPure base views).map (fun x => x.2))
        ((buildPure base views).map (fun x => x.1)) =
      (buildPure base views).map
        (fun x => { x.1 with pane := x.1.pane.init x.2.prm }) := by
  intro views
  induction views with
  | nil => intro base; rfl
  | cons v rest ih =>
    intro base
    show foldUpd ((buildPure (base + 1) rest).map (fun x => x.2))
        ((mkItem base v ::
          (buildPure (base + 1) rest).map (fun x => x.1)).map
            (updOne (mkQueued base v))) = _
    rw [List.map_cons]
    have h1 : updOne (mkQueued base v) (mkItem base v) =
        { mkItem base v with
          pane := (mkItem base v).pane.init (mkQueued base v).prm } := by
      unfold updOne
      rw [if_pos (show (mkItem base v).pane.ref = (mkQueued base v).ref
        from rfl)]
    rw [h1]
    have h2 : ((buildPure (base + 1) rest).map (fun x => x.1)).map
        (updOne (mkQueued base v)) =
        (buildPure (base + 1) rest).map (fun x => x.1) := by
      apply map_updOne_skip
      intro it hit
      obtain ⟨x, hx, rfl⟩ := List.mem_map.mp hit
      have hge := buildPure_refs_ge rest (base + 1) x hx
      show x.1.pane.ref ≠ (mkQueued base v).ref
      show x.1.pane.ref ≠ base
      omega
    rw [h2, foldUpd_cons_head]
    have h3 : ((buildPure (base + 1) rest).map (fun x => x.2)).foldl
        (fun x qi => updOne qi x)
        { mkItem base v with
          pane := (mkItem base v).pane.init (mkQueued base v).prm } =
        { mkItem base v with
          pane := (mkItem base v).pane.init (mkQueued base v).prm } := by
      apply foldl_updOne_skip
      intro qi hqi
      obtain ⟨x, hx, rfl⟩ := List.mem_map.mp hqi
      have hge := buildPure_refs_ge rest (base + 1) x hx
      show (base : Nat) ≠ x.2.ref
      omega
    rw [h3, ih (base + 1)]
    rfl

lemma mem_serializeViews {pv : Paneview} :
    ∀ {l : List PaneviewPanel} {i : Nat} {v : SerializedPaneviewPanel},
      v ∈ serializeViews pv i l → ∃ p ∈ l, v.data = p.toJSON := by
  intro l
  induction l with
  | nil =>
    intro i v h
    simp [serializeViews] at h
  | cons p rest ih =>
    intro i v h
    rcases List.mem_cons.mp h with rfl | h
    · exact ⟨p, List.mem_cons_self p rest, rfl⟩
    · obtain ⟨q, hq, hd⟩ := ih h
      exact ⟨q, List.mem_cons_of_mem p hq, hd⟩

lemma applyQueue_aux_paneview (s : PaneviewComponent) :
    ((fromJSONStateAux s s.toJSON
        (buildPure s.nextRef s.toJSON.views)).applyQueue
      ((buildPure s.nextRef s.toJSON.views).map (fun x => x.2))).paneview =
    pvRebuilt s := by
  rw [applyQueue_eq]
  show { (fromJSONStateAux s s.toJSON
      (buildPure s.nextRef s.toJSON.views)).paneview with
    panes := foldUpd
      ((buildPure s.nextRef s.toJSON.views).map (fun x => x.2))
      (fromJSONStateAux s s.toJSON
        (buildPure s.nextRef s.toJSON.views)).paneview.panes } = pvRebuilt s
  rw [fromJSONStateAux_paneview]
  show { orientation := Orientation.vertical
         size := s.toJSON.size
         orthogonalSize := 0
         panes := foldUpd
           ((buildPure s.nextRef s.toJSON.views).map (fun x => x.2))
           ((buildPure s.nextRef s.toJSON.views).map (fun x => x.1))
         disposed := false } = pvRebuilt s
  rw [foldUpd_buildPure s.toJSON.views s.nextRef]
  rfl

lemma pvRebuilt_getElem (s : PaneviewComponent) (j : Nat) :
    (pvRebuilt s).panes[j]? = (s.toJSON.views[j]?).map (fun v =>
      { mkItem (s.nextRef + j) v with
        pane := (mkItem (s.nextRef + j) v).pane.init
          (mkQueued (s.nextRef + j) v).prm }) := by
  have hp : (pvRebuilt s).panes =
      (buildPure s.nextRef s.toJSON.views).map
        (fun x => { x.1 with pane := x.1.pane.init x.2.prm }) := rfl
  rw [hp, List.getElem?_map, buildPure_getElem, Option.map_map]
  rfl

lemma toJSON_views_getElem (s : PaneviewComponent) (j : Nat) :
    s.toJSON.views[j]? = (s.paneview.panes[j]?).map
      (fun it => emitView s.paneview j it.pane) := by
  show (serializeViews s.paneview 0 s.paneview.getPanes)[j]? = _
  rw [serializeViews_getElem]
  unfold Paneview.getPanes
  rw [List.getElem?_map, Option.map_map]
  simp only [Nat.zero_add]
  rfl

lemma pvRebuilt_getViewSize (s : PaneviewComponent) (j : Nat) :
    (pvRebuilt s).getViewSize j =
      ((s.toJSON.views[j]?).map (fun v => v.size)).getD 0 := by
  unfold Paneview.getViewSize
  rw [pvRebuilt_getElem, Option.map_map]
  cases s.toJSON.views[j]? <;> rfl

lemma roundtrip_views (s : PaneviewComponent) :
    serializeViews (pvRebuilt s) 0 ((pvRebuilt s).getPanes) =
      serializeViews s.paneview 0 s.paneview.getPanes := by
  apply List.ext_getElem?
  intro j
  rw [serializeViews_getElem, serializeViews_getElem]
  simp only [Nat.zero_add]
  unfold Paneview.getPanes
  rw [List.getElem?_map, List.getElem?_map, Option.map_map, Option.map_map,
    pvRebuilt_getElem, toJSON_views_getElem, Option.map_map]
  cases hj : s.paneview.panes[j]? with
  | none => rfl
  | some itj =>
    simp only [Option.map_some']
    have hsz : (pvRebuilt s).getViewSize j = s.paneview.getViewSize j := by
      rw [pvRebuilt_getViewSize, toJSON_views_getElem, hj]
      rfl
    apply congrArg some
    show emitView (pvRebuilt s) j
      ((mkItem (s.nextRef + j) (emitView s.paneview j itj.pane)).pane.init
        (mkQueued (s.nextRef + j)
          (emitView s.paneview j itj.pane)).prm) =
      emitView s.paneview j itj.pane
    unfold emitView
    rw [hsz]
    rfl

/-- C3: for every orchestrator state reachable by a finite sequence of
`addPanel`, `movePanel` and `removePanel` operations, the synchronous
`fromJSON(toJSON())` round trip succeeds and the reconstructed
orchestrator's `toJSON()` is deep-equal to the original document: same
top-level size, same number of views in the same visual order, and per view
the same size, descriptor (id, component kinds, title, params), body-size
bounds and expanded flag. -/
theorem fromJSON_toJSON_roundtrip (s : PaneviewComponent)
    (hr : Reachable s) :
    (s.fromJSON s.toJSON false).ok = true ∧
    (s.fromJSON s.toJSON false).state.toJSON = s.toJSON := by
  obtain ⟨hov, hbnd, hnd, hres⟩ := reachable_inv hr
  have hresv : ∀ v ∈ s.toJSON.views,
      v.data.component ∈ s.options.components ∧
      ∀ hk, v.data.headerComponent = some hk →
        hk ∈ s.options.headerComponents := by
    intro v hv
    have hv' : v ∈ serializeViews s.paneview 0 s.paneview.getPanes := hv
    obtain ⟨p, hp, hdata⟩ := mem_serializeViews hv'
    have hp' : p ∈ s.paneview.panes.map (fun it => it.pane) := hp
    obtain ⟨it, hit, rfl⟩ := List.mem_map.mp hp'
    have hresit := hres it hit
    rw [hdata]
    exact ⟨hresit.1, fun hk hhk => hresit.2 hk hhk⟩
  have hbv := buildViews_ok_of_resolvable s.options s.toJSON.views
    s.nextRef hresv
  rw [fromJSON_ok_eq s s.toJSON false _ hbv, if_neg Bool.false_ne_true]
  refine ⟨rfl, ?_⟩
  have htJ : ∀ t : PaneviewComponent, t.toJSON =
      { size := t.paneview.size
        views := serializeViews t.paneview 0 t.paneview.getPanes } :=
    fun t => rfl
  rw [htJ ((fromJSONStateAux s s.toJSON
      (buildPure s.nextRef s.toJSON.views)).applyQueue
    ((buildPure s.nextRef s.toJSON.views).map (fun x => x.2))),
    applyQueue_aux_paneview, roundtrip_views]
  rfl

/-- Witness for `fromJSON_toJSON_roundtrip` at the concrete reachable state
`sA`. -/
theorem fromJSON_toJSON_roundtrip_witness :
    (sA.fromJSON sA.toJSON false).ok = true ∧
    (sA.fromJSON sA.toJSON false).state.toJSON = sA.toJSON :=
  fromJSON_toJSON_roundtrip sA
    (Reachable.add s0 addA sA (Reachable.create elemA optsA) rfl)

end Dockview
